import Mathlib

/-!
Verification of `scripts/dump_schema_docker.py`.

The script is modelled shallowly: Python strings become `List Char` (wrapped
back into Lean `String` at the interfaces), the Python `dict` becomes an
association list with replace-or-append insertion, fallible operations return
`Except String`, and the process effects of `main` become a pure function from
an abstract `World` (env-file contents, outcome of the external dump command,
file system) to a `RunResult` (exit code, final file system, flags).

The URL handling of `parse_database_url` delegates to CPython's
`urllib.parse`; the relevant fragment (`urlsplit`, `urlparse`, and the
`hostname` / `port` / `username` / `password` netloc properties) is
transcribed below from CPython 3.11 `urllib/parse.py`.  Unicode-specific
behaviour that the script never exercises is simplified and noted at each
definition: `str.lower` is modelled on ASCII, and the NFKC confusable check
of `_checknetloc` (a no-op on every ASCII netloc) is modelled as accepting.
-/

/-- Character code 39, the single-quote character. -/
def squote : Char := Char.ofNat 39

/-- Character code 34, the double-quote character. -/
def dquote : Char := '"'

/-- Python `str.strip`'s whitespace test, for the ASCII whitespace characters
(space, tab, newline, carriage return, vertical tab, form feed).  Unicode
whitespace is not modelled. -/
def isPySpace (c : Char) : Bool :=
  c == ' ' || c == '\t' || c == '\n' || c == '\r' || c == Char.ofNat 11 || c == Char.ofNat 12

/-- Python `str.lstrip()` on a character list. -/
def lstripL (l : List Char) : List Char := l.dropWhile isPySpace

/-- Python `str.rstrip()` on a character list. -/
def rstripL (l : List Char) : List Char := (l.reverse.dropWhile isPySpace).reverse

/-- Python `str.strip()` on a character list. -/
def stripL (l : List Char) : List Char := rstripL (lstripL l)

/-- Python `value.startswith(c)` for a single character `c`. -/
def firstIs (l : List Char) (c : Char) : Bool :=
  match l with
  | [] => false
  | a :: _ => a == c

/-- Python `value.endswith(c)` for a single character `c`. -/
def lastIs (l : List Char) (c : Char) : Bool :=
  match l.getLast? with
  | none => false
  | some a => a == c

/-- Quote removal of `load_env_file` (lines 42-45 of the script):
`value[1:-1]` is applied when the value starts and ends with `"` or starts
and ends with a single quote. -/
def stripQuotesL (v : List Char) : List Char :=
  if firstIs v dquote && lastIs v dquote then (v.drop 1).dropLast
  else if firstIs v squote && lastIs v squote then (v.drop 1).dropLast
  else v

/-- Per-line parsing of `load_env_file` (lines 29-47 of the script): strip the
line, skip blank lines and `#` comments, split on the first `=`, strip key and
value, remove one layer of quotes from the value.  Lines without `=` yield
nothing. -/
def parseEnvLine (line : String) : Option (String × String) :=
  let l := stripL line.data
  if l = [] then none
  else if l.head? = some '#' then none
  else if l.contains '=' then
    let k := l.takeWhile (fun c => !(c == '='))
    let v := (l.dropWhile (fun c => !(c == '='))).drop 1
    some (⟨stripL k⟩, ⟨stripQuotesL (stripL v)⟩)
  else none

/-- Python `dict` assignment `m[k] = v`: replace the value in place when the
key is present, append otherwise. -/
def dictInsert (m : List (String × String)) (k v : String) : List (String × String) :=
  if m.any (fun p => p.1 == k) then
    m.map (fun p => if p.1 == k then (p.1, v) else p)
  else m ++ [(k, v)]

/-- Python `dict` lookup `m.get(k)`. -/
def dictGet (m : List (String × String)) (k : String) : Option String :=
  (m.find? (fun p => p.1 == k)).map Prod.snd

/-- Processing of one line inside the loop of `load_env_file`: the dictionary
is unchanged when the line parses to nothing, else `env_vars[key] = value`. -/
def envStep (m : List (String × String)) (line : String) : List (String × String) :=
  match parseEnvLine line with
  | none => m
  | some kv => dictInsert m kv.1 kv.2

/-- Body of `load_env_file` (lines 28-49 of the script), over the list of
lines of the env file. -/
def load_env_file (lines : List String) : List (String × String) :=
  lines.foldl envStep []

/-- Pairs produced by the line parser, in file order; `load_env_file` folds
exactly these into the dictionary. -/
def parsedPairs (lines : List String) : List (String × String) :=
  lines.filterMap parseEnvLine

/-- Value of the last parsed line binding `key`, if any. -/
def lastValueFor (lines : List String) (key : String) : Option String :=
  (((parsedPairs lines).filter (fun p => p.1 == key)).getLast?).map Prod.snd

/-! urllib.parse model, transcribed from CPython 3.11 `urllib/parse.py`. -/

/-- Removal of the unsafe bytes tab, carriage return, and newline, applied by
`urlsplit` to the whole URL before parsing (`_UNSAFE_URL_BYTES_TO_REMOVE`). -/
def removeUnsafe (l : List Char) : List Char :=
  l.filter (fun c => !(c == '\t' || c == '\r' || c == '\n'))

/-- Membership in `scheme_chars` of `urllib.parse`: ASCII letters, digits,
plus, minus, dot. -/
def isSchemeChar (c : Char) : Bool :=
  c.isAlpha || c.isDigit || c == '+' || c == '-' || c == '.'

/-- Scheme extraction of `urlsplit`: when the URL has a `:` at a positive
position, its first character is an ASCII letter, and every character before
the `:` is a scheme character, the part before the `:` (lowercased) is the
scheme and the rest follows; otherwise the scheme is empty.  The lowercasing
is faithful because scheme characters are all ASCII. -/
def splitScheme (url : List Char) : List Char × List Char :=
  let before := url.takeWhile (fun c => !(c == ':'))
  match url.dropWhile (fun c => !(c == ':')) with
  | [] => ([], url)
  | _ :: after =>
    match before with
    | [] => ([], url)
    | c0 :: _ =>
      if c0.toNat < 128 && c0.isAlpha && before.all isSchemeChar then
        (before.map Char.toLower, after)
      else ([], url)

/-- Netloc delimiters of `_splitnetloc`. -/
def isNetlocDelim (c : Char) : Bool := c == '/' || c == '?' || c == '#'

/-- CPython `_splitnetloc`: the netloc runs to the earliest of `/`, `?`, `#`. -/
def splitNetloc (rest : List Char) : List Char × List Char :=
  (rest.takeWhile (fun c => !isNetlocDelim c), rest.dropWhile (fun c => !isNetlocDelim c))

/-- Python `s.split(c, 1)` under the assumption `c ∈ s`: the part before the
first `c` and the part after it. -/
def splitFirst (l : List Char) (c : Char) : List Char × List Char :=
  (l.takeWhile (fun a => !(a == c)), (l.dropWhile (fun a => !(a == c))).drop 1)

/-- Result record of `urlsplit`. -/
structure SplitResult where
  scheme : List Char
  netloc : List Char
  path : List Char
  query : List Char
  fragment : List Char
deriving Repr, DecidableEq

/-- CPython 3.11 `urlsplit` (with the default `allow_fragments=True`): remove
unsafe bytes, split off the scheme, take the netloc after a leading `//` up to
the next delimiter (rejecting unbalanced square brackets with `ValueError:
Invalid IPv6 URL`), then split off the fragment at the first `#` and the query
at the first `?`.  The NFKC confusable check of `_checknetloc`, which returns
without effect on every ASCII netloc, is modelled as accepting. -/
def urlsplitE (url0 : List Char) : Except String SplitResult :=
  let url1 := removeUnsafe url0
  let sp := splitScheme url1
  let scheme := sp.1
  let u := sp.2
  let hasNetloc := decide (u.take 2 = ['/', '/'])
  let nl := if hasNetloc then splitNetloc (u.drop 2) else ([], u)
  let netloc := nl.1
  let u2 := nl.2
  if (netloc.contains '[' && !netloc.contains ']') ||
      (netloc.contains ']' && !netloc.contains '[') then
    .error "Invalid IPv6 URL"
  else
    let fr := if u2.contains '#' then splitFirst u2 '#' else (u2, [])
    let qr := if fr.1.contains '?' then splitFirst fr.1 '?' else (fr.1, [])
    .ok ⟨scheme, netloc, qr.1, qr.2, fr.2⟩

/-- Schemes of `uses_params` in `urllib.parse`. -/
def uses_params : List (List Char) :=
  (["", "ftp", "hdl", "prospero", "http", "imap", "https", "shttp", "rtsp",
    "rtspu", "sip", "sips", "mms", "sftp", "tel"]).map String.data

/-- CPython `_splitparams`: split the path at the first `;` that follows the
last `/` (or the first `;` of the whole path when there is no `/`); in the
caller the path is known to contain a `;`. -/
def splitparams (url : List Char) : List Char × List Char :=
  if url.contains '/' then
    let rev := url.reverse
    let afterLast := (rev.takeWhile (fun c => !(c == '/'))).reverse
    let beforeInc := (rev.dropWhile (fun c => !(c == '/'))).reverse
    if afterLast.contains ';' then
      let s := splitFirst afterLast ';'
      (beforeInc ++ s.1, s.2)
    else (url, [])
  else splitFirst url ';'

/-- Result record of `urlparse`. -/
structure ParseResult where
  scheme : List Char
  netloc : List Char
  path : List Char
  params : List Char
  query : List Char
  fragment : List Char
deriving Repr, DecidableEq

/-- CPython `urlparse`: `urlsplit`, then parameter splitting for the schemes
of `uses_params` when the path contains a `;`. -/
def urlparseE (url : List Char) : Except String ParseResult :=
  match urlsplitE url with
  | .error e => .error e
  | .ok r =>
    if uses_params.contains r.scheme && r.path.contains ';' then
      let p := splitparams r.path
      .ok ⟨r.scheme, r.netloc, p.1, p.2, r.query, r.fragment⟩
    else .ok ⟨r.scheme, r.netloc, r.path, [], r.query, r.fragment⟩

/-- Python `s.partition(c)` for a single character: the part before the first
occurrence, whether one was found, and the part after it. -/
def partitionChar (l : List Char) (c : Char) : List Char × Bool × List Char :=
  if l.contains c then
    (l.takeWhile (fun a => !(a == c)), true, (l.dropWhile (fun a => !(a == c))).drop 1)
  else (l, false, [])

/-- Python `s.rpartition(c)` for a single character: the part before the last
occurrence, whether one was found, and the part after it. -/
def rpartitionChar (l : List Char) (c : Char) : List Char × Bool × List Char :=
  if l.contains c then
    (((l.reverse.dropWhile (fun a => !(a == c))).drop 1).reverse, true,
      (l.reverse.takeWhile (fun a => !(a == c))).reverse)
  else ([], false, l)

/-- CPython `_userinfo` property: username and password from the part of the
netloc before the last `@`; the password is the part after the first `:` of
the userinfo and is `None` when there is no `:`; both are `None` when the
netloc has no `@`. -/
def userinfoOf (netloc : List Char) : Option (List Char) × Option (List Char) :=
  let u := rpartitionChar netloc '@'
  if u.2.1 then
    let p := partitionChar u.1 ':'
    (some p.1, if p.2.1 then some p.2.2 else none)
  else (none, none)

/-- CPython `_hostinfo` property: host and port string from the part of the
netloc after the last `@`, honouring square brackets; an empty port string
becomes `None`. -/
def hostinfoOf (netloc : List Char) : List Char × Option (List Char) :=
  let hostinfo := (rpartitionChar netloc '@').2.2
  let br := partitionChar hostinfo '['
  let pair :=
    if br.2.1 then
      let h := partitionChar br.2.2 ']'
      (h.1, (partitionChar h.2.2 ':').2.2)
    else
      let h := partitionChar hostinfo ':'
      (h.1, h.2.2)
  (pair.1, if pair.2 = [] then none else some pair.2)

/-- CPython `hostname` property: `None` when the host part is empty, else the
host lowercased, with an IPv6 zone suffix after `%` left untouched.  The
lowercasing is modelled on ASCII. -/
def hostnameOf (netloc : List Char) : Option (List Char) :=
  let hostname := (hostinfoOf netloc).1
  if hostname = [] then none
  else
    let p := partitionChar hostname '%'
    some (p.1.map Char.toLower ++ (if p.2.1 then '%' :: p.2.2 else []))

/-- Numeric value of a list of decimal digits, as computed by Python `int` on
a digit string. -/
def digitsToNat (l : List Char) : Nat :=
  l.foldl (fun acc c => acc * 10 + (c.toNat - 48)) 0

/-- CPython 3.11 `port` property: `None` when the port string is absent;
otherwise the string must be nonempty ASCII digits (`port.isdigit() and
port.isascii()`, which for Python strings holds exactly of nonempty ASCII
digit strings) and the value must lie in `0..65535`, else a `ValueError` is
raised. -/
def portOfE (netloc : List Char) : Except String (Option Nat) :=
  match (hostinfoOf netloc).2 with
  | none => .ok none
  | some p =>
    if p ≠ [] && p.all Char.isDigit then
      if digitsToNat p ≤ 65535 then .ok (some (digitsToNat p))
      else .error "Port out of range 0-65535"
    else .error "Port could not be cast to integer value"

/-- Python truthiness choice `x or d` for an optional string: `d` when `x` is
`None` or empty. -/
def pyOrStr (x : Option (List Char)) (d : List Char) : List Char :=
  match x with
  | none => d
  | some s => if s = [] then d else s

/-- Python truthiness choice `x or d` for an optional integer: `d` when `x`
is `None` or `0`. -/
def pyOrNat (x : Option Nat) (d : Nat) : Nat :=
  match x with
  | none => d
  | some n => if n = 0 then d else n

/-- Connection-parameter record returned by `parse_database_url`. -/
structure DbConfig where
  host : String
  port : Nat
  database : String
  user : Option String
  password : Option String
deriving Repr, DecidableEq

/-- Body of `parse_database_url` (lines 52-62 of the script): `urlparse` the
URL, then build the record with host defaulted to `localhost`, port defaulted
to `5432`, database the path with leading slashes removed and anything from a
`?` on discarded, and user and password taken verbatim.  Errors are the
`ValueError`s that `urlparse` and the `port` property can raise, which the
script does not catch. -/
def parse_database_url (database_url : String) : Except String DbConfig :=
  match urlparseE database_url.data with
  | .error e => .error e
  | .ok parsed =>
    match portOfE parsed.netloc with
    | .error e => .error e
    | .ok port? =>
      .ok { host := ⟨pyOrStr (hostnameOf parsed.netloc) "localhost".data⟩,
            port := pyOrNat port? 5432,
            database := ⟨(parsed.path.dropWhile (fun c => c == '/')).takeWhile (fun c => !(c == '?'))⟩,
            user := (userinfoOf parsed.netloc).1.map (fun l => (⟨l⟩ : String)),
            password := (userinfoOf parsed.netloc).2.map (fun l => (⟨l⟩ : String)) }

/-! Effects model for `dump_schema_docker` and `main`. -/

/-- Outcome of invoking the external dump command (`subprocess.run` of the
`docker run ... pg_dump ...` command): either the `docker` binary is missing
(`FileNotFoundError`), or the command completes with a return code, captured
standard output, and captured standard error. -/
inductive DumpOutcome where
  | notFound
  | completed (returncode : Nat) (stdout : String) (stderr : String)
deriving Repr, DecidableEq

/-- File-system write `open(path, 'w')` followed by writing `contents`:
overwrite the entry at `path`, creating it when absent. -/
def fsWrite (fs : List (String × String)) (path contents : String) : List (String × String) :=
  dictInsert fs path contents

/-- File-system read of an entry, `none` when the file does not exist. -/
def fsGet (fs : List (String × String)) (path : String) : Option String :=
  dictGet fs path

/-- Body of `dump_schema_docker` (lines 65-120 of the script), with the
external invocation abstracted by a `DumpOutcome` oracle: `subprocess.run`
with `check=True` raises `CalledProcessError` on a nonzero return code (caught,
returning `False` with no write) and `FileNotFoundError` when `docker` is
missing (caught, returning `False` with no write); on return code zero the
captured standard output is written to the output file and `True` is
returned. -/
def dump_schema_docker (db_config : DbConfig) (outcome : DumpOutcome)
    (fs : List (String × String)) (output_file : String) :
    Bool × List (String × String) :=
  match db_config, outcome with
  | _, .notFound => (false, fs)
  | _, .completed 0 stdout _ => (true, fsWrite fs output_file stdout)
  | _, .completed (_ + 1) _ _ => (false, fs)

/-- State of the world that `main` interacts with: the lines of the `.env`
file at the project root (`none` when the file is absent), the outcome the
external dump command would have, the file system, and whether the `docs`
directory exists. -/
structure World where
  envLines : Option (List String)
  dumpOutcome : DumpOutcome
  fs : List (String × String)
  docsDirExists : Bool
deriving Repr, DecidableEq

/-- Observable result of a run of `main`: the process exit status, the final
file system, whether the `docs` directory exists afterwards, and whether the
external dump command was invoked. -/
structure RunResult where
  exitCode : Nat
  fs : List (String × String)
  docsDirExists : Bool
  dumpInvoked : Bool
deriving Repr, DecidableEq

/-- Fixed output path `docs/prism.sql` relative to the project root. -/
def outputFile : String := "docs/prism.sql"

namespace Script

/-- Body of `main` (lines 123-157 of the script): `load_env_file` exits with
status 1 when the env file is absent (before anything else happens); a missing
or empty (falsy) `DATABASE_URL` exits with status 1; an uncaught `ValueError`
from `parse_database_url` terminates the process with status 1; otherwise the
`docs` directory is created (`mkdir(exist_ok=True)`), the dump runs, and the
process exits 0 on success and 1 on failure. -/
def main (w : World) : RunResult :=
  match w.envLines with
  | none => ⟨1, w.fs, w.docsDirExists, false⟩
  | some lines =>
    let env_vars := load_env_file lines
    match dictGet env_vars "DATABASE_URL" with
    | none => ⟨1, w.fs, w.docsDirExists, false⟩
    | some database_url =>
      if database_url = "" then ⟨1, w.fs, w.docsDirExists, false⟩
      else
        match parse_database_url database_url with
        | .error _ => ⟨1, w.fs, w.docsDirExists, false⟩
        | .ok db_config =>
          let r := dump_schema_docker db_config w.dumpOutcome w.fs outputFile
          ⟨if r.1 then 0 else 1, r.2, true, true⟩

end Script

/-- Failure of the external dump command: the binary is missing or the return
code is nonzero. -/
def dumpFailed : DumpOutcome → Bool
  | .notFound => true
  | .completed rc _ _ => decide (rc ≠ 0)

/-! Model validation on concrete inputs, mirroring runs of the Python code. -/

example : parse_database_url "postgres://u:p@myhost:5433/mydb" =
    .ok ⟨"myhost", 5433, "mydb", some "u", some "p"⟩ := by rfl
example : parse_database_url "postgres://u@localhost/mydb" =
    .ok ⟨"localhost", 5432, "mydb", some "u", none⟩ := by rfl
example : parse_database_url "postgres://u:p@myhost:bad/mydb" =
    .error "Port could not be cast to integer value" := by rfl
example : parse_database_url "postgres:///mydb" =
    .ok ⟨"localhost", 5432, "mydb", none, none⟩ := by rfl
example : parse_database_url "postgres://u:p@/mydb" =
    .ok ⟨"localhost", 5432, "mydb", some "u", some "p"⟩ := by rfl
example : parse_database_url "postgres://u:p@myhost:0/mydb" =
    .ok ⟨"myhost", 5432, "mydb", some "u", some "p"⟩ := by rfl
example : parse_database_url "postgres://u:p@myhost:99999/mydb" =
    .error "Port out of range 0-65535" := by rfl
example : parse_database_url "postgres://MyHost/db?sslmode=require" =
    .ok ⟨"myhost", 5432, "db", none, none⟩ := by rfl
example : parse_database_url "weird" =
    .ok ⟨"localhost", 5432, "weird", none, none⟩ := by rfl
example : parse_database_url "" =
    .ok ⟨"localhost", 5432, "", none, none⟩ := by rfl
example : parse_database_url "postgres://u:p@myhost:5433/mydb?a=b#frag" =
    .ok ⟨"myhost", 5433, "mydb", some "u", some "p"⟩ := by rfl
example : parse_database_url "http://h/a;b" =
    .ok ⟨"h", 5432, "a", none, none⟩ := by rfl

example :
    Script.main ⟨some ["DATABASE_URL=postgres://u:p@myhost:5433/mydb"],
      .completed 0 "-- schema" "", [], false⟩ =
    ⟨0, [(outputFile, "-- schema")], true, true⟩ := by rfl
example :
    Script.main ⟨some ["DATABASE_URL=postgres://u:p@myhost:5433/mydb"],
      .completed 1 "" "pg_dump: error", [], false⟩ =
    ⟨1, [], true, true⟩ := by rfl
example :
    Script.main ⟨none, .completed 0 "-- schema" "", [], false⟩ = ⟨1, [], false, false⟩ := by rfl
example :
    Script.main ⟨some ["OTHER=1"], .completed 0 "s" "", [], false⟩ = ⟨1, [], false, false⟩ := by rfl

example : parseEnvLine "KEY=\"value with spaces\"" = some ("KEY", "value with spaces") := by rfl
example : parseEnvLine "KEY=\"" = some ("KEY", "") := by rfl
example : parseEnvLine "# comment" = none := by rfl
example : parseEnvLine "   " = none := by rfl
example : parseEnvLine "noequals" = none := by rfl
example : load_env_file ["A=1", "A=2", "B=3", "A=4"] = [("A", "4"), ("B", "3")] := by rfl

/-! Helper lemmas about the Python string primitives. -/

theorem lstripL_cons_of_not (a : Char) (l : List Char) (ha : isPySpace a = false) :
    lstripL (a :: l) = a :: l := by
  unfold lstripL
  simp [List.dropWhile_cons, ha]

theorem lstripL_append_cons (k rest : List Char) (c : Char) (hc : isPySpace c = false) :
    lstripL (k ++ c :: rest) = lstripL k ++ c :: rest := by
  unfold lstripL
  rw [List.dropWhile_append]
  split
  · rename_i h
    have h' : List.dropWhile isPySpace k = [] := by simpa using h
    simp [h', List.dropWhile_cons, hc]
  · rfl

theorem rstripL_append_cons (m l : List Char) (c : Char) (hc : isPySpace c = false) :
    rstripL (m ++ c :: l) = m ++ c :: rstripL l := by
  unfold rstripL
  rw [show (m ++ c :: l).reverse = l.reverse ++ c :: m.reverse by simp]
  rw [List.dropWhile_append]
  split
  · rename_i h
    have h' : List.dropWhile isPySpace l.reverse = [] := by simpa using h
    simp [h', List.dropWhile_cons, hc]
  · simp

theorem rstripL_cons_of_not (a : Char) (l : List Char) (ha : isPySpace a = false) :
    rstripL (a :: l) = a :: rstripL l := by
  simpa using rstripL_append_cons [] l a ha

theorem rstripL_cons_of_space (a : Char) (l : List Char) (ha : isPySpace a = true) :
    rstripL (a :: l) = if rstripL l = [] then [] else a :: rstripL l := by
  unfold rstripL
  rw [show (a :: l).reverse = l.reverse ++ [a] by simp]
  rw [List.dropWhile_append]
  by_cases h : List.dropWhile isPySpace l.reverse = []
  · simp [h, List.dropWhile_cons, ha]
  · simp [h]

theorem stripL_append_cons (k rest : List Char) (c : Char) (hc : isPySpace c = false) :
    stripL (k ++ c :: rest) = lstripL k ++ c :: rstripL rest := by
  unfold stripL
  rw [lstripL_append_cons k rest c hc, rstripL_append_cons (lstripL k) rest c hc]

theorem lstripL_idem (l : List Char) : lstripL (lstripL l) = lstripL l :=
  List.dropWhile_idempotent _ _

theorem rstripL_idem (l : List Char) : rstripL (rstripL l) = rstripL l := by
  unfold rstripL
  rw [List.reverse_reverse, List.dropWhile_idempotent]

theorem stripL_lstripL (l : List Char) : stripL (lstripL l) = stripL l := by
  unfold stripL
  rw [lstripL_idem]

theorem stripL_rstripL (l : List Char) : stripL (rstripL l) = stripL l := by
  induction l with
  | nil => rfl
  | cons a l ih =>
    by_cases ha : isPySpace a
    · rw [rstripL_cons_of_space a l ha]
      by_cases h : rstripL l = []
      · rw [if_pos h]
        have hl : stripL l = [] := by rw [← ih, h]; rfl
        rw [show stripL (a :: l) = stripL l by
          unfold stripL lstripL; simp [List.dropWhile_cons, ha]]
        rw [hl]; rfl
      · rw [if_neg h]
        rw [show stripL (a :: rstripL l) = stripL (rstripL l) by
          unfold stripL lstripL; simp [List.dropWhile_cons, ha]]
        rw [show stripL (a :: l) = stripL l by
          unfold stripL lstripL; simp [List.dropWhile_cons, ha]]
        exact ih
    · have ha' : isPySpace a = false := by simpa using ha
      rw [rstripL_cons_of_not a l ha']
      rw [show stripL (a :: rstripL l) = rstripL (a :: rstripL l) by
        unfold stripL; rw [lstripL_cons_of_not _ _ ha']]
      rw [show stripL (a :: l) = rstripL (a :: l) by
        unfold stripL; rw [lstripL_cons_of_not _ _ ha']]
      rw [rstripL_cons_of_not _ _ ha', rstripL_cons_of_not _ _ ha', rstripL_idem]

theorem stripL_of_ends (a b : Char) (l : List Char)
    (ha : isPySpace a = false) (hb : isPySpace b = false) :
    stripL (a :: l ++ [b]) = a :: l ++ [b] := by
  unfold stripL
  rw [List.cons_append, lstripL_cons_of_not a (l ++ [b]) ha, ← List.cons_append]
  have h0 : rstripL [] = ([] : List Char) := rfl
  have h := rstripL_append_cons (a :: l) [] b hb
  rw [h0] at h
  simpa using h

theorem takeWhile_ne_append (k rest : List Char) (c : Char) (hk : c ∉ k) :
    (k ++ c :: rest).takeWhile (fun a => !(a == c)) = k := by
  induction k with
  | nil => simp [List.takeWhile_cons]
  | cons a k ih =>
    have ha : (a == c) = false := by
      simp only [List.mem_cons, not_or] at hk
      simp [Ne.symm, hk.1]
    simp only [List.cons_append, List.takeWhile_cons, ha]
    simp only [Bool.not_false, if_true]
    rw [ih (fun h => hk (List.mem_cons_of_mem _ h))]

theorem dropWhile_ne_append (k rest : List Char) (c : Char) (hk : c ∉ k) :
    (k ++ c :: rest).dropWhile (fun a => !(a == c)) = c :: rest := by
  induction k with
  | nil => simp [List.dropWhile_cons]
  | cons a k ih =>
    have ha : (a == c) = false := by
      simp only [List.mem_cons, not_or] at hk
      simp [Ne.symm, hk.1]
    simp only [List.cons_append, List.dropWhile_cons, ha]
    simp only [Bool.not_false, if_true]
    exact ih (fun h => hk (List.mem_cons_of_mem _ h))


/-! Helper lemmas about the dictionary model. -/

theorem find?_replace (m : List (String × String)) (k v : String) :
    (m.map (fun p => if p.1 == k then (p.1, v) else p)).find? (fun p => p.1 == k) =
      (m.find? (fun p => p.1 == k)).map (fun p => (p.1, v)) := by
  induction m with
  | nil => rfl
  | cons p m ih =>
    simp only [List.map_cons, List.find?_cons]
    by_cases hk : p.1 = k
    · have hb : (p.1 == k) = true := by simpa using hk
      have hhead : (if (p.1 == k) = true then (p.1, v) else p) = (p.1, v) := if_pos hb
      rw [hhead]
      have hb2 : ((p.1, v).1 == k) = true := hb
      rw [hb2]
      rfl
    · have hb : (p.1 == k) = false := by simpa using hk
      have hhead : (if (p.1 == k) = true then (p.1, v) else p) = p := by
        rw [hb]; simp
      rw [hhead, hb]
      exact ih

theorem find?_replace_ne (m : List (String × String)) (k1 k2 v : String) (h : k2 ≠ k1) :
    (m.map (fun p => if p.1 == k1 then (p.1, v) else p)).find? (fun p => p.1 == k2) =
      m.find? (fun p => p.1 == k2) := by
  induction m with
  | nil => rfl
  | cons p m ih =>
    simp only [List.map_cons, List.find?_cons]
    by_cases hk2 : p.1 = k2
    · have hk1 : ¬ p.1 = k1 := by rw [hk2]; exact h
      have hb1 : (p.1 == k1) = false := by simpa using hk1
      have hhead : (if (p.1 == k1) = true then (p.1, v) else p) = p := by
        rw [hb1]; simp
      have hb2 : (p.1 == k2) = true := by simpa using hk2
      rw [hhead, hb2]
    · have hfst : (if p.1 == k1 then (p.1, v) else p).1 = p.1 := by
        split <;> rfl
      rw [hfst]
      have hb : (p.1 == k2) = false := by simpa using hk2
      rw [hb]
      exact ih

theorem dictGet_insert_self (m : List (String × String)) (k v : String) :
    dictGet (dictInsert m k v) k = some v := by
  unfold dictInsert dictGet
  by_cases h : (m.any fun p => p.1 == k) = true
  · rw [if_pos h, find?_replace]
    rw [List.any_eq_true] at h
    have hs : (m.find? (fun p => p.1 == k)).isSome = true := List.find?_isSome.mpr h
    obtain ⟨q, hq⟩ := Option.isSome_iff_exists.mp hs
    rw [hq]
    rfl
  · rw [if_neg h, List.find?_append]
    have hfalse : (m.any fun p => p.1 == k) = false := by
      simpa only [Bool.not_eq_true] using h
    have hnone : m.find? (fun p => p.1 == k) = none := by
      rw [List.find?_eq_none]
      exact fun p hp => by
        have := List.any_eq_false.mp hfalse p hp
        exact this
    rw [hnone]
    simp [List.find?_cons]

theorem dictGet_insert_ne (m : List (String × String)) (k1 k2 v : String) (h : k2 ≠ k1) :
    dictGet (dictInsert m k1 v) k2 = dictGet m k2 := by
  unfold dictInsert dictGet
  by_cases hany : (m.any fun p => p.1 == k1) = true
  · rw [if_pos hany, find?_replace_ne m k1 k2 v h]
  · rw [if_neg hany, List.find?_append]
    have hb : ((k1, v).1 == k2) = false := by
      simpa using Ne.symm h
    simp [List.find?_cons, hb]

theorem keys_dictInsert (m : List (String × String)) (k v : String) :
    (dictInsert m k v).map Prod.fst =
      if m.any (fun p => p.1 == k) then m.map Prod.fst else m.map Prod.fst ++ [k] := by
  unfold dictInsert
  by_cases h : (m.any fun p => p.1 == k) = true
  · rw [if_pos h, if_pos h, List.map_map]
    apply List.map_congr_left
    intro p _
    simp only [Function.comp_apply]
    split <;> rfl
  · rw [if_neg h, if_neg h]
    simp

theorem nodup_keys_dictInsert (m : List (String × String)) (k v : String)
    (h : (m.map Prod.fst).Nodup) : ((dictInsert m k v).map Prod.fst).Nodup := by
  rw [keys_dictInsert]
  by_cases hany : (m.any fun p => p.1 == k) = true
  · rw [if_pos hany]
    exact h
  · rw [if_neg hany]
    have hfalse : (m.any fun p => p.1 == k) = false := by
      simpa only [Bool.not_eq_true] using hany
    rw [List.nodup_append]
    refine ⟨h, List.nodup_singleton k, ?_⟩
    intro x hx hkx
    rw [List.mem_singleton] at hkx
    subst hkx
    obtain ⟨p, hp, hpx⟩ := List.mem_map.mp hx
    have hne := List.any_eq_false.mp hfalse p hp
    rw [hpx] at hne
    simp at hne

theorem nodup_keys_foldl (lines : List String) :
    ∀ (m : List (String × String)), (m.map Prod.fst).Nodup →
      ((lines.foldl envStep m).map Prod.fst).Nodup := by
  induction lines with
  | nil => intro m h; exact h
  | cons line ls ih =>
    intro m h
    rw [List.foldl_cons]
    apply ih
    unfold envStep
    cases parseEnvLine line with
    | none => exact h
    | some kv => exact nodup_keys_dictInsert m kv.1 kv.2 h

theorem getLastQ_cons {α : Type} (a : α) (l : List α) :
    (a :: l).getLast? = some (l.getLast?.getD a) := by
  induction l generalizing a with
  | nil => rfl
  | cons b l ih =>
    rw [List.getLast?_cons_cons, ih b]
    rfl

theorem dictGet_foldl (lines : List String) :
    ∀ (m : List (String × String)) (key : String),
      dictGet (lines.foldl envStep m) key =
        match ((lines.filterMap parseEnvLine).filter (fun p => p.1 == key)).getLast? with
        | some p => some p.2
        | none => dictGet m key := by
  induction lines with
  | nil => intro m key; rfl
  | cons line ls ih =>
    intro m key
    rw [List.foldl_cons, ih (envStep m line) key]
    cases hline : parseEnvLine line with
    | none =>
      unfold envStep
      rw [hline]
      simp only [List.filterMap_cons, hline]
    | some kv =>
      unfold envStep
      rw [hline]
      simp only [List.filterMap_cons, hline]
      by_cases hk : kv.1 = key
      · have hb : (kv.1 == key) = true := by simpa using hk
        rw [List.filter_cons_of_pos (by simpa using hb)]
        rw [getLastQ_cons]
        cases hlast : (((ls.filterMap parseEnvLine).filter (fun p => p.1 == key)).getLast?) with
        | some p => simp [hlast]
        | none =>
          simp only [hlast, Option.getD_none]
          rw [hk] at *
          rw [dictGet_insert_self]
      · have hb : (kv.1 == key) = false := by simpa using hk
        rw [List.filter_cons_of_neg (by simp [hb])]
        cases hlast : (((ls.filterMap parseEnvLine).filter (fun p => p.1 == key)).getLast?) with
        | some p => simp [hlast]
        | none =>
          simp only [hlast]
          exact dictGet_insert_ne m kv.1 key kv.2 (fun hc => hk hc.symm)

theorem dictGet_load_env_file (lines : List String) (key : String) :
    dictGet (load_env_file lines) key = lastValueFor lines key := by
  unfold load_env_file lastValueFor parsedPairs
  rw [dictGet_foldl lines [] key]
  cases h : ((lines.filterMap parseEnvLine).filter (fun p => p.1 == key)).getLast? with
  | some p => rfl
  | none => rfl

/-! Claim theorems. -/

/-- C1: for the input URL `postgres://u:p@myhost:5433/mydb`,
`parse_database_url` returns a record with host `myhost`, port `5433`,
database `mydb`, user `u`, and password `p`. -/
theorem c1_parse_full_url :
    parse_database_url "postgres://u:p@myhost:5433/mydb" =
      .ok ⟨"myhost", 5433, "mydb", some "u", some "p"⟩ := by
  rfl

/-- C5: on a successful dump (return code 0), `dump_schema_docker` reports
success and writes the captured standard output to the output file, whose
contents afterwards are exactly that output. -/
theorem c5_output_equals_stdout (db_config : DbConfig) (stdout stderr : String)
    (fs : List (String × String)) (output_file : String) :
    dump_schema_docker db_config (.completed 0 stdout stderr) fs output_file =
      (true, fsWrite fs output_file stdout) ∧
    fsGet (fsWrite fs output_file stdout) output_file = some stdout :=
  ⟨rfl, dictGet_insert_self fs output_file stdout⟩

/-- C3: when the env file does not exist, the process exits with status 1 and
the external dump command is never invoked. -/
theorem c3_missing_env_exits_one_without_dump (w : World) (h : w.envLines = none) :
    (Script.main w).exitCode = 1 ∧ (Script.main w).dumpInvoked = false := by
  unfold Script.main
  rw [h]
  exact ⟨rfl, rfl⟩

/-- C3 witness: a world with no env file exits 1 without invoking the dump. -/
theorem c3_witness :
    (World.mk none (.completed 0 "s" "") [] false).envLines = none ∧
    (Script.main ⟨none, .completed 0 "s" "", [], false⟩).exitCode = 1 ∧
    (Script.main ⟨none, .completed 0 "s" "", [], false⟩).dumpInvoked = false :=
  ⟨rfl, c3_missing_env_exits_one_without_dump ⟨none, .completed 0 "s" "", [], false⟩ rfl⟩

/-- C2: whenever the external dump command exits with a non-zero status, the
file system is unchanged (in particular the output file is neither created nor
modified) and the process exits with status 1. -/
theorem c2_nonzero_dump_no_write_exit_one (w : World) (rc : Nat) (out err : String)
    (hout : w.dumpOutcome = .completed rc out err) (hrc : rc ≠ 0) :
    (Script.main w).fs = w.fs ∧ (Script.main w).exitCode = 1 := by
  obtain ⟨env?, outc, fs0, docs0⟩ := w
  have hout2 : outc = .completed rc out err := hout
  subst hout2
  obtain ⟨k, rfl⟩ := Nat.exists_eq_succ_of_ne_zero hrc
  unfold Script.main
  cases env? with
  | none => exact ⟨rfl, rfl⟩
  | some lines =>
    dsimp only
    cases dictGet (load_env_file lines) "DATABASE_URL" with
    | none => exact ⟨rfl, rfl⟩
    | some url =>
      dsimp only
      by_cases hu : url = ""
      · rw [if_pos hu]
        exact ⟨rfl, rfl⟩
      · rw [if_neg hu]
        cases parse_database_url url with
        | error e => exact ⟨rfl, rfl⟩
        | ok cfg => exact ⟨rfl, rfl⟩

/-- C2 witness: a failing dump (return code 1) leaves the file system empty
and exits 1. -/
theorem c2_witness :
    (World.mk (some ["DATABASE_URL=postgres://u:p@myhost:5433/mydb"])
        (.completed 1 "" "boom") [] false).dumpOutcome = .completed 1 "" "boom" ∧
    (1 : Nat) ≠ 0 ∧
    (Script.main ⟨some ["DATABASE_URL=postgres://u:p@myhost:5433/mydb"],
        .completed 1 "" "boom", [], false⟩).fs = [] ∧
    (Script.main ⟨some ["DATABASE_URL=postgres://u:p@myhost:5433/mydb"],
        .completed 1 "" "boom", [], false⟩).exitCode = 1 :=
  ⟨rfl, by decide,
    c2_nonzero_dump_no_write_exit_one
      ⟨some ["DATABASE_URL=postgres://u:p@myhost:5433/mydb"],
        .completed 1 "" "boom", [], false⟩ 1 "" "boom" rfl (by decide)⟩

/-- C8: when a key occurs on more than one parsed line of the env file,
`load_env_file` maps it to the value of the last such line, and the keys of
the resulting mapping are pairwise distinct. -/
theorem c8_last_write_wins (lines : List String) (key : String)
    (_hdup : 1 < ((parsedPairs lines).filter (fun p => p.1 == key)).length) :
    dictGet (load_env_file lines) key = lastValueFor lines key ∧
    ((load_env_file lines).map Prod.fst).Nodup :=
  ⟨dictGet_load_env_file lines key, nodup_keys_foldl lines [] List.nodup_nil⟩

/-- C8 witness: the file `A=1`, `A=2` binds `A` twice; the mapping takes the
last value and has no duplicate key. -/
theorem c8_witness :
    1 < ((parsedPairs ["A=1", "A=2"]).filter (fun p => p.1 == "A")).length ∧
    (dictGet (load_env_file ["A=1", "A=2"]) "A" = lastValueFor ["A=1", "A=2"] "A" ∧
      ((load_env_file ["A=1", "A=2"]).map Prod.fst).Nodup) :=
  ⟨by decide, c8_last_write_wins ["A=1", "A=2"] "A" (by decide)⟩

/-- C6: for the input URL `postgres://u@localhost/mydb` (no port, no
password), `parse_database_url` returns host `localhost`, port `5432`,
database `mydb`, user `u`, and no password; and in general, whenever the URL
parses and its hostname and port components are absent, the resulting record
has host `localhost` and port `5432`. -/
theorem c6_defaults_when_absent :
    parse_database_url "postgres://u@localhost/mydb" =
      .ok ⟨"localhost", 5432, "mydb", some "u", none⟩ ∧
    ∀ (url : String) (p : ParseResult) (cfg : DbConfig),
      urlparseE url.data = .ok p →
      hostnameOf p.netloc = none →
      portOfE p.netloc = .ok none →
      parse_database_url url = .ok cfg →
      cfg.host = "localhost" ∧ cfg.port = 5432 := by
  constructor
  · rfl
  · intro url p cfg hparse hhost hport hok
    unfold parse_database_url at hok
    rw [hparse] at hok
    dsimp only at hok
    rw [hport] at hok
    dsimp only at hok
    rw [hhost] at hok
    cases hok
    exact ⟨rfl, rfl⟩

/-- C6 witness: the concrete URL `postgres:///mydb` has absent hostname and
port, and the parsed record defaults to host `localhost`, port `5432`. -/
theorem c6_witness :
    urlparseE ("postgres:///mydb").data = .ok ⟨"postgres".data, [], ([] : List Char) ++ "/mydb".data, [], [], []⟩ ∧
    hostnameOf ([] : List Char) = none ∧
    portOfE ([] : List Char) = .ok none ∧
    parse_database_url "postgres:///mydb" = .ok ⟨"localhost", 5432, "mydb", none, none⟩ ∧
    (DbConfig.mk "localhost" 5432 "mydb" none none).host = "localhost" ∧
    (DbConfig.mk "localhost" 5432 "mydb" none none).port = 5432 := by
  refine ⟨by rfl, by rfl, by rfl, by rfl, ?_⟩
  exact c6_defaults_when_absent.2 "postgres:///mydb"
    ⟨"postgres".data, [], ([] : List Char) ++ "/mydb".data, [], [], []⟩
    ⟨"localhost", 5432, "mydb", none, none⟩ (by rfl) (by rfl) (by rfl) (by rfl)

/-- C4 counterexample: the malformed URL `postgres://u:p@myhost:bad/mydb`
(non-numeric port) makes `parse_database_url` fail with a `ValueError` rather
than return a record with default values. -/
theorem c4_counterexample :
    parse_database_url "postgres://u:p@myhost:bad/mydb" =
      .error "Port could not be cast to integer value" := by
  rfl

/-- C4 amended: malformed URLs whose host and port components are merely
absent degrade to the defaults (host `localhost`, port `5432`) without
failing; but `parse_database_url` can fail explicitly: a URL whose port
component is present and not a valid integer raises a `ValueError`. -/
theorem c4_amended_defaults_or_port_error :
    (∀ (url : String) (p : ParseResult),
      urlparseE url.data = .ok p →
      hostnameOf p.netloc = none →
      portOfE p.netloc = .ok none →
      ∃ cfg, parse_database_url url = .ok cfg ∧ cfg.host = "localhost" ∧ cfg.port = 5432) ∧
    parse_database_url "postgres://u:p@myhost:bad/mydb" =
      .error "Port could not be cast to integer value" := by
  constructor
  · intro url p hparse hhost hport
    have hok : parse_database_url url =
        .ok { host := ⟨pyOrStr (hostnameOf p.netloc) "localhost".data⟩,
              port := pyOrNat none 5432,
              database := ⟨(p.path.dropWhile (fun c => c == '/')).takeWhile (fun c => !(c == '?'))⟩,
              user := (userinfoOf p.netloc).1.map (fun l => (⟨l⟩ : String)),
              password := (userinfoOf p.netloc).2.map (fun l => (⟨l⟩ : String)) } := by
      unfold parse_database_url
      rw [hparse]
      dsimp only
      rw [hport]
    refine ⟨_, hok, ?_, rfl⟩
    dsimp only
    rw [hhost]
    rfl
  · rfl

/-- C4 witness for the amended statement: `postgres:///mydb` has absent
hostname and port and parses to the defaulted record. -/
theorem c4_witness :
    urlparseE ("postgres:///mydb").data = .ok ⟨"postgres".data, [], ([] : List Char) ++ "/mydb".data, [], [], []⟩ ∧
    hostnameOf ([] : List Char) = none ∧
    portOfE ([] : List Char) = .ok none ∧
    ∃ cfg, parse_database_url "postgres:///mydb" = .ok cfg ∧
      cfg.host = "localhost" ∧ cfg.port = 5432 := by
  refine ⟨by rfl, by rfl, by rfl, ?_⟩
  exact c4_amended_defaults_or_port_error.1 "postgres:///mydb"
    ⟨"postgres".data, [], ([] : List Char) ++ "/mydb".data, [], [], []⟩
    (by rfl) (by rfl) (by rfl)

/-- C10: whenever a run reaches the dump step (env file present, a nonempty
`DATABASE_URL`, and a URL that parses), the docs directory is created before
the dump is attempted, so a failing dump still leaves the directory created
while writing no file. -/
theorem c10_docs_dir_created_even_on_failed_dump (w : World) (lines : List String)
    (url : String) (cfg : DbConfig)
    (henv : w.envLines = some lines)
    (hurl : dictGet (load_env_file lines) "DATABASE_URL" = some url)
    (hne : url ≠ "")
    (hcfg : parse_database_url url = .ok cfg)
    (hfail : dumpFailed w.dumpOutcome = true) :
    (Script.main w).docsDirExists = true ∧ (Script.main w).fs = w.fs ∧
    (Script.main w).dumpInvoked = true := by
  obtain ⟨env?, outc, fs0, docs0⟩ := w
  have henv2 : env? = some lines := henv
  subst henv2
  have hfail2 : dumpFailed outc = true := hfail
  unfold Script.main
  dsimp only
  rw [hurl]
  dsimp only
  rw [if_neg hne, hcfg]
  dsimp only
  refine ⟨rfl, ?_, rfl⟩
  cases outc with
  | notFound => rfl
  | completed rc out err =>
    cases rc with
    | zero => simp [dumpFailed] at hfail2
    | succ k => rfl

/-- C10 witness: with a valid env file and a dump failing with return code 1,
the docs directory exists afterwards, the file system is untouched, and the
dump was invoked. -/
theorem c10_witness :
    (World.mk (some ["DATABASE_URL=postgres://u:p@myhost:5433/mydb"])
        (.completed 1 "" "err") [] false).envLines =
      some ["DATABASE_URL=postgres://u:p@myhost:5433/mydb"] ∧
    dictGet (load_env_file ["DATABASE_URL=postgres://u:p@myhost:5433/mydb"]) "DATABASE_URL" =
      some "postgres://u:p@myhost:5433/mydb" ∧
    "postgres://u:p@myhost:5433/mydb" ≠ "" ∧
    parse_database_url "postgres://u:p@myhost:5433/mydb" =
      .ok ⟨"myhost", 5433, "mydb", some "u", some "p"⟩ ∧
    dumpFailed (.completed 1 "" "err") = true ∧
    ((Script.main ⟨some ["DATABASE_URL=postgres://u:p@myhost:5433/mydb"],
        .completed 1 "" "err", [], false⟩).docsDirExists = true ∧
      (Script.main ⟨some ["DATABASE_URL=postgres://u:p@myhost:5433/mydb"],
        .completed 1 "" "err", [], false⟩).fs =
        (World.mk (some ["DATABASE_URL=postgres://u:p@myhost:5433/mydb"])
          (.completed 1 "" "err") [] false).fs ∧
      (Script.main ⟨some ["DATABASE_URL=postgres://u:p@myhost:5433/mydb"],
        .completed 1 "" "err", [], false⟩).dumpInvoked = true) :=
  ⟨rfl, by rfl, by decide, by rfl, by rfl,
    c10_docs_dir_created_even_on_failed_dump
      ⟨some ["DATABASE_URL=postgres://u:p@myhost:5433/mydb"], .completed 1 "" "err", [], false⟩
      ["DATABASE_URL=postgres://u:p@myhost:5433/mydb"]
      "postgres://u:p@myhost:5433/mydb"
      ⟨"myhost", 5433, "mydb", some "u", some "p"⟩
      rfl (by rfl) (by decide) (by rfl) (by rfl)⟩

/-- C7: a line of the form `KEY="value with spaces"` (the key containing no
`=`, its stripped form not starting the comment marker `#`) parses to the key
with exactly one layer of the wrapping quotes stripped from the value and all
interior characters preserved, for a matching pair of double quotes and for a
matching pair of single quotes; and in a one-line env file the key is mapped
to that value. -/
theorem c7_quoted_value_preserved (key v : String) (q : Char)
    (hq : q = dquote ∨ q = squote)
    (hk : '=' ∉ key.data)
    (hh : (lstripL key.data).head? ≠ some '#') :
    parseEnvLine ⟨key.data ++ '=' :: (q :: v.data ++ [q])⟩ =
      some (⟨stripL key.data⟩, v) ∧
    dictGet (load_env_file [⟨key.data ++ '=' :: (q :: v.data ++ [q])⟩]) ⟨stripL key.data⟩ =
      some v := by
  have hqs : isPySpace q = false := by
    cases hq with
    | inl h => subst h; rfl
    | inr h => subst h; rfl
  have heqs : isPySpace '=' = false := by rfl
  have hstrip : stripL (key.data ++ '=' :: (q :: v.data ++ [q])) =
      lstripL key.data ++ '=' :: rstripL (q :: v.data ++ [q]) :=
    stripL_append_cons key.data (q :: v.data ++ [q]) '=' heqs
  have hrv : rstripL (q :: v.data ++ [q]) = q :: v.data ++ [q] := by
    have h0 : rstripL [] = ([] : List Char) := rfl
    have h := rstripL_append_cons (q :: v.data) [] q hqs
    rw [h0] at h
    simpa using h
  have hk2 : '=' ∉ lstripL key.data := fun hmem =>
    hk ((List.dropWhile_sublist isPySpace).subset hmem)
  have hne_nil : lstripL key.data ++ '=' :: (q :: v.data ++ [q]) ≠ [] := by simp
  have hhead : (lstripL key.data ++ '=' :: (q :: v.data ++ [q])).head? ≠ some '#' := by
    rw [List.head?_append]
    cases hlk : (lstripL key.data).head? with
    | none => simp
    | some c =>
      rw [hlk] at hh
      simpa using hh
  have hcontains : (lstripL key.data ++ '=' :: (q :: v.data ++ [q])).contains '=' = true := by
    simp
  have htake : (lstripL key.data ++ '=' :: (q :: v.data ++ [q])).takeWhile
      (fun a => !(a == '=')) = lstripL key.data :=
    takeWhile_ne_append (lstripL key.data) (q :: v.data ++ [q]) '=' hk2
  have hdrop : (lstripL key.data ++ '=' :: (q :: v.data ++ [q])).dropWhile
      (fun a => !(a == '=')) = '=' :: (q :: v.data ++ [q]) :=
    dropWhile_ne_append (lstripL key.data) (q :: v.data ++ [q]) '=' hk2
  have hvstrip : stripL (q :: v.data ++ [q]) = q :: v.data ++ [q] :=
    stripL_of_ends q q v.data hqs hqs
  have hlastq : (q :: v.data ++ [q]).getLast? = some q := List.getLast?_concat _
  have hsq : stripQuotesL (q :: v.data ++ [q]) = v.data := by
    have hdl : ((q :: v.data ++ [q]).drop 1).dropLast = v.data := by
      rw [List.cons_append]
      simp [List.dropLast_concat]
    unfold stripQuotesL
    cases hq with
    | inl h =>
      subst h
      have hfi : firstIs (dquote :: v.data ++ [dquote]) dquote = true := by
        rw [List.cons_append]
        simp [firstIs]
      have hla : lastIs (dquote :: v.data ++ [dquote]) dquote = true := by
        unfold lastIs
        rw [hlastq]
        simp
      rw [hfi, hla]
      simp [hdl]
    | inr h =>
      subst h
      have hfi : firstIs (squote :: v.data ++ [squote]) dquote = false := by
        rw [List.cons_append]
        simp [firstIs]
        decide
      have hfi2 : firstIs (squote :: v.data ++ [squote]) squote = true := by
        rw [List.cons_append]
        simp [firstIs]
      have hla : lastIs (squote :: v.data ++ [squote]) squote = true := by
        unfold lastIs
        rw [hlastq]
        simp
      rw [hfi, hfi2, hla]
      simp [hdl]
  have hparse : parseEnvLine ⟨key.data ++ '=' :: (q :: v.data ++ [q])⟩ =
      some (⟨stripL key.data⟩, v) := by
    unfold parseEnvLine
    rw [hstrip, hrv]
    rw [if_neg hne_nil, if_neg hhead]
    rw [if_pos hcontains]
    rw [htake, hdrop]
    simp only [List.drop_one, List.tail_cons]
    rw [stripL_lstripL, hvstrip, hsq]
  refine ⟨hparse, ?_⟩
  unfold load_env_file
  simp only [List.foldl_cons, List.foldl_nil]
  unfold envStep
  rw [hparse]
  exact dictGet_insert_self [] ⟨stripL key.data⟩ v

/-- C7 witness: the line `KEY="value with spaces"` maps `KEY` to
`value with spaces`, quotes stripped and interior spaces preserved. -/
theorem c7_witness :
    ((dquote = dquote ∨ dquote = squote) ∧ '=' ∉ "KEY".data ∧
      (lstripL "KEY".data).head? ≠ some '#') ∧
    (parseEnvLine "KEY=\"value with spaces\"" = some ("KEY", "value with spaces") ∧
      dictGet (load_env_file ["KEY=\"value with spaces\""]) "KEY" =
        some "value with spaces") := by
  refine ⟨⟨Or.inl rfl, by decide, by decide⟩, ?_⟩
  have h := c7_quoted_value_preserved "KEY" "value with spaces" dquote
    (Or.inl rfl) (by decide) (by decide)
  have e1 : (⟨"KEY".data ++ '=' :: (dquote :: "value with spaces".data ++ [dquote])⟩ : String) =
      "KEY=\"value with spaces\"" := by decide
  have e2 : (⟨stripL "KEY".data⟩ : String) = "KEY" := by decide
  rw [e1, e2] at h
  exact h

/-- C9: a line whose trimmed value is a single quote character (a lone double
quote or a lone single quote) maps the key to the empty string: the
quote-stripping fires because the value's first and last characters are the
same quote character, even as one and the same character. -/
theorem c9_lone_quote_maps_to_empty (key vraw : String) (q : Char)
    (hq : q = dquote ∨ q = squote)
    (hk : '=' ∉ key.data)
    (hh : (lstripL key.data).head? ≠ some '#')
    (hv : stripL vraw.data = [q]) :
    parseEnvLine ⟨key.data ++ '=' :: vraw.data⟩ = some (⟨stripL key.data⟩, "") ∧
    dictGet (load_env_file [⟨key.data ++ '=' :: vraw.data⟩]) ⟨stripL key.data⟩ =
      some "" := by
  have heqs : isPySpace '=' = false := rfl
  have hstrip : stripL (key.data ++ '=' :: vraw.data) =
      lstripL key.data ++ '=' :: rstripL vraw.data :=
    stripL_append_cons key.data vraw.data '=' heqs
  have hk2 : '=' ∉ lstripL key.data := fun hmem =>
    hk ((List.dropWhile_sublist isPySpace).subset hmem)
  have hne_nil : lstripL key.data ++ '=' :: rstripL vraw.data ≠ [] := by simp
  have hhead : (lstripL key.data ++ '=' :: rstripL vraw.data).head? ≠ some '#' := by
    rw [List.head?_append]
    cases hlk : (lstripL key.data).head? with
    | none => simp
    | some c =>
      rw [hlk] at hh
      simpa using hh
  have hcontains : (lstripL key.data ++ '=' :: rstripL vraw.data).contains '=' = true := by
    simp
  have htake := takeWhile_ne_append (lstripL key.data) (rstripL vraw.data) '=' hk2
  have hdrop := dropWhile_ne_append (lstripL key.data) (rstripL vraw.data) '=' hk2
  have hval : stripL (rstripL vraw.data) = [q] := by
    rw [stripL_rstripL]
    exact hv
  have hsq : stripQuotesL [q] = [] := by
    cases hq with
    | inl h => subst h; rfl
    | inr h => subst h; rfl
  have hparse : parseEnvLine ⟨key.data ++ '=' :: vraw.data⟩ =
      some (⟨stripL key.data⟩, "") := by
    unfold parseEnvLine
    rw [hstrip]
    rw [if_neg hne_nil, if_neg hhead, if_pos hcontains]
    rw [htake, hdrop]
    simp only [List.drop_one, List.tail_cons]
    rw [stripL_lstripL, hval, hsq]
  refine ⟨hparse, ?_⟩
  unfold load_env_file
  simp only [List.foldl_cons, List.foldl_nil]
  unfold envStep
  rw [hparse]
  exact dictGet_insert_self [] ⟨stripL key.data⟩ ""

/-- C9 witness: the line with a lone double quote as value maps `K` to the
empty string. -/
theorem c9_witness :
    ((dquote = dquote ∨ dquote = squote) ∧ '=' ∉ "K".data ∧
      (lstripL "K".data).head? ≠ some '#' ∧ stripL "\"".data = [dquote]) ∧
    (parseEnvLine "K=\"" = some ("K", "") ∧
      dictGet (load_env_file ["K=\""]) "K" = some "") := by
  refine ⟨⟨Or.inl rfl, by decide, by decide, by decide⟩, ?_⟩
  have h := c9_lone_quote_maps_to_empty "K" "\"" dquote
    (Or.inl rfl) (by decide) (by decide) (by decide)
  have e1 : (⟨"K".data ++ '=' :: "\"".data⟩ : String) = "K=\"" := by decide
  have e2 : (⟨stripL "K".data⟩ : String) = "K" := by decide
  rw [e1, e2] at h
  exact h
